import Mathlib

/-!
Verification of the trade-copy reconciliation engine of
`ccxt-trades-duplicator` (`src/main.py`).

The embedding models:
* the Trade Ledger tables `processed_trades` and `holdings` (sqlite) as
  in-memory lists, with sqlite's PRIMARY KEY violation surfacing as
  `PyError.integrityError`;
* the per-trade body of `fetch_and_copy_trades` (lines 116-162) as a pure
  state-transition function `processTrade`, parameterised by the outcome of
  the Exchange Gateway calls (`GatewayEnv`) and recording each gateway call
  as an `Event`;
* the Python local variable `amount`, which is assigned only in the buy
  branch yet read on line 156 for every trade, as an `Option ℚ` field
  (`amountVar`) of the engine state — reading it while unbound raises
  `PyError.nameError` (Python's UnboundLocalError), caught by the per-trade
  `except Exception` handler;
* one polling cycle (balance fetch, `order_amount_usdt = usdt_balance * 0.1`,
  iteration over `reversed(trades)`) as `runCycle`.

Real-number quantities (balances, prices, amounts) are modelled as `ℚ`.
-/

namespace TradesDuplicator

/-- Errors that can be raised inside the per-trade `try` block.
`integrityError` is sqlite's duplicate-PRIMARY-KEY error, `nameError` is
Python's UnboundLocalError for the variable `amount`, `invalidPrice` is the
Position Sizer error named by the specification (never raised by the code). -/
inductive PyError where
  | integrityError
  | zeroDivisionError
  | nameError
  | insufficientFunds
  | exchangeError
  | invalidPrice
  deriving DecidableEq, Repr

/-- One row of the `processed_trades` table (`ord_id` is the primary key). -/
structure ProcessedRow where
  ordId : String
  symbol : String
  amount : ℚ
  side : String
  deriving DecidableEq, Repr

/-- The Trade Ledger: the `processed_trades` table and the `holdings` table
(`holdings` as an association list keyed by symbol, the primary key). -/
structure Ledger where
  processed : List ProcessedRow
  holdings : List (String × ℚ)
  deriving DecidableEq, Repr

/-- `is_trade_processed` (main.py lines 45-51): true iff a row with this
`ord_id` exists in `processed_trades`. -/
def is_trade_processed (db : Ledger) (ordId : String) : Bool :=
  db.processed.any (fun r => r.ordId == ordId)

/-- `mark_trade_as_processed` (main.py lines 53-62): INSERT a row into
`processed_trades`; sqlite raises IntegrityError when the primary key
`ord_id` is already present. -/
def mark_trade_as_processed (db : Ledger) (ordId symbol : String) (amount : ℚ)
    (side : String) : Except PyError Ledger :=
  if is_trade_processed db ordId then .error .integrityError
  else .ok { db with processed := db.processed ++ [⟨ordId, symbol, amount, side⟩] }

/-- The SQL `UPDATE holdings SET amount = ? WHERE symbol = ?`: replace the
amount of every row whose key matches (at most one in practice). -/
def setHolding (hs : List (String × ℚ)) (symbol : String) (v : ℚ) :
    List (String × ℚ) :=
  hs.map (fun p => if p.1 == symbol then (symbol, v) else p)

/-- The SQL `SELECT amount FROM holdings WHERE symbol = ?` (first row). -/
def lookupHolding (hs : List (String × ℚ)) (symbol : String) : Option ℚ :=
  (hs.find? (fun p => p.1 == symbol)).map (fun p => p.2)

/-- `update_holdings` (main.py lines 64-76): if a row for the symbol exists,
add the amount for a `'buy'` side and subtract it otherwise; if no row
exists, INSERT `(symbol, amount)` — note the inserted value ignores `side`. -/
def update_holdings (db : Ledger) (symbol : String) (amount : ℚ)
    (side : String) : Ledger :=
  match lookupHolding db.holdings symbol with
  | some current =>
      let newAmount := if side == "buy" then current + amount else current - amount
      { db with holdings := setHolding db.holdings symbol newAmount }
  | none => { db with holdings := db.holdings ++ [(symbol, amount)] }

/-- `get_holding_amount` (main.py lines 78-84): the stored amount, 0 when the
symbol has no row. -/
def get_holding_amount (db : Ledger) (symbol : String) : ℚ :=
  (lookupHolding db.holdings symbol).getD 0

/-- A lead trade as consumed by the loop: `trade['order']`, `trade['symbol']`,
`trade['side']`, `trade['price']`, and the quote currency of
`exchange.market(symbol)`. -/
structure Trade where
  order : String
  symbol : String
  side : String
  price : ℚ
  quote : String
  deriving DecidableEq, Repr

/-- Outcome of the Exchange Gateway calls available to one per-trade body:
`orderResult` is the id of the order minted by `create_market_order` (or the
exception it raises), `marginResult` the outcome of `set_margin_mode`. -/
structure GatewayEnv where
  orderResult : Except PyError String
  marginResult : Except PyError Unit

/-- A call made to the Exchange Gateway during the per-trade body. -/
inductive Event where
  | marketOrder (symbol side : String) (amount : ℚ)
  | setMarginMode (symbol : String)
  deriving DecidableEq, Repr

/-- Engine-local state threaded through the loop: the Ledger plus the Python
local variable `amount` (unbound until a buy branch first assigns it). -/
structure EngineState where
  db : Ledger
  amountVar : Option ℚ
  deriving DecidableEq, Repr

/-- The buy sizing on main.py line 135: `amount = order_amount_usdt / price`.
Python float division raises ZeroDivisionError when `price == 0`; there is no
guard for negative prices. -/
def computeBuyAmount (orderAmountUsdt price : ℚ) : Except PyError ℚ :=
  if price = 0 then .error .zeroDivisionError
  else .ok (orderAmountUsdt / price)

/-- Line 156, `mark_trade_as_processed(ord_id, symbol, amount, side)`, reached
from the sell and unrecognized-side paths: reads the Python local `amount`
(UnboundLocalError when it was never assigned) and marks the lead trade id. -/
def finishLeadMark (st : EngineState) (t : Trade) (evs : List Event) :
    EngineState × List Event × Option PyError :=
  match st.amountVar with
  | none => (st, evs, some .nameError)
  | some a =>
      match mark_trade_as_processed st.db t.order t.symbol a t.side with
      | .error e => (st, evs, some e)
      | .ok db1 => ({ st with db := db1 }, evs, none)

/-- The per-trade body of `fetch_and_copy_trades` (main.py lines 116-162).
Returns the engine state after the iteration, the list of Exchange Gateway
calls made, and the exception caught by the per-trade handler (lines
157-162), if any. Ledger writes performed before an exception persist, as in
the source. -/
def processTrade (env : GatewayEnv) (orderAmountUsdt : ℚ) (st : EngineState)
    (t : Trade) : EngineState × List Event × Option PyError :=
  if is_trade_processed st.db t.order then
    (st, [], none)
  else if t.quote ≠ "USDT" then
    (st, [], none)
  else if t.side == "buy" then
    match computeBuyAmount orderAmountUsdt t.price with
    | .error e => (st, [], some e)
    | .ok amount =>
        let st1 : EngineState := { st with amountVar := some amount }
        let evs := [Event.marketOrder t.symbol "buy" amount]
        match env.orderResult with
        | .error e => (st1, evs, some e)
        | .ok newId =>
            match mark_trade_as_processed st1.db newId t.symbol amount "buy" with
            | .error e => (st1, evs, some e)
            | .ok db1 =>
                let db2 := update_holdings db1 t.symbol amount "buy"
                match mark_trade_as_processed db2 t.order t.symbol amount "buy" with
                | .error e => ({ st1 with db := db2 }, evs, some e)
                | .ok db3 => ({ st1 with db := db3 }, evs, none)
  else if t.side == "sell" then
    let amountToSell := get_holding_amount st.db t.symbol
    if 0 < amountToSell then
      match env.marginResult with
      | .error e => (st, [], some e)
      | .ok _ =>
          let evs := [Event.setMarginMode t.symbol,
                      Event.marketOrder t.symbol "sell" amountToSell]
          match env.orderResult with
          | .error e => (st, evs, some e)
          | .ok newId =>
              match mark_trade_as_processed st.db newId t.symbol amountToSell "sell" with
              | .error e => (st, evs, some e)
              | .ok db1 =>
                  let db2 := update_holdings db1 t.symbol amountToSell "sell"
                  finishLeadMark { st with db := db2 } t evs
    else
      finishLeadMark st t []
  else
    finishLeadMark st t []

/-- Iterate the per-trade body over a list of (gateway outcome, trade) pairs,
collecting the gateway calls in order; caught exceptions are only logged. -/
def processTrades (orderAmountUsdt : ℚ) :
    EngineState → List (GatewayEnv × Trade) → EngineState × List Event
  | st, [] => (st, [])
  | st, (env, t) :: rest =>
      let r := processTrade env orderAmountUsdt st t
      let r2 := processTrades orderAmountUsdt r.1 rest
      (r2.1, r.2.1 ++ r2.2)

/-- One polling cycle (main.py lines 108-116): the USDT balance is fetched
once, `order_amount_usdt = usdt_balance * 0.1` is computed once, and the
fetched page is processed in `reversed` order with that fixed amount. -/
def runCycle (usdtBalance : ℚ) (st : EngineState)
    (page : List (GatewayEnv × Trade)) : EngineState × List Event :=
  processTrades (usdtBalance * (1 / 10)) st page.reverse

/-- Whether a gateway call is an order submission (`create_market_order`), as
opposed to the `set_margin_mode` call. -/
def isOrderCall : Event → Bool
  | .marketOrder _ _ _ => true
  | .setMarginMode _ => false

/-- Apply a sequence `(side, amount)` of holding deltas for one symbol, in
order, through `update_holdings`. -/
def applyDeltas (symbol : String) : Ledger → List (String × ℚ) → Ledger
  | db, [] => db
  | db, (side, a) :: rest => applyDeltas symbol (update_holdings db symbol a side) rest

/-- Sum of the buy amounts minus the sum of the non-buy amounts of a delta
sequence. -/
def signedSum : List (String × ℚ) → ℚ
  | [] => 0
  | (side, a) :: rest => (if side == "buy" then a else -a) + signedSum rest

theorem lookupHolding_nil (x : String) : lookupHolding [] x = none := rfl

theorem lookupHolding_cons (q : String × ℚ) (t : List (String × ℚ)) (x : String) :
    lookupHolding (q :: t) x =
      if q.1 == x then some q.2 else lookupHolding t x := by
  cases hq : (q.1 == x) with
  | true => simp [lookupHolding, List.find?_cons, hq]
  | false => simp only [lookupHolding, List.find?_cons, hq, Bool.false_eq_true, if_false]

theorem setHolding_cons (q : String × ℚ) (t : List (String × ℚ)) (s : String)
    (v : ℚ) :
    setHolding (q :: t) s v =
      (if q.1 == s then (s, v) else q) :: setHolding t s v := rfl

theorem lookupHolding_setHolding_self (hs : List (String × ℚ)) (s : String)
    (v : ℚ) :
    lookupHolding (setHolding hs s v) s = (lookupHolding hs s).map (fun _ => v) := by
  induction hs with
  | nil => rfl
  | cons q t ih =>
      rw [setHolding_cons, lookupHolding_cons, lookupHolding_cons]
      cases hq : (q.1 == s) with
      | true => simp [hq]
      | false => simp [hq, ih]

theorem lookupHolding_setHolding_ne (hs : List (String × ℚ)) (s s' : String)
    (v : ℚ) (h : s' ≠ s) :
    lookupHolding (setHolding hs s v) s' = lookupHolding hs s' := by
  induction hs with
  | nil => rfl
  | cons q t ih =>
      rw [setHolding_cons, lookupHolding_cons, lookupHolding_cons]
      cases hq : (q.1 == s) with
      | true =>
          have hss : (s == s') = false := by
            simp only [beq_eq_false_iff_ne, ne_eq]
            exact fun hc => h hc.symm
          have hqs : (q.1 == s') = false := by
            have hq1 : q.1 = s := by simpa using hq
            simpa [hq1] using hss
          simp [hq, hss, hqs, ih]
      | false => simp [hq, ih]

theorem lookupHolding_append_self (hs : List (String × ℚ)) (s : String) (v : ℚ)
    (h : lookupHolding hs s = none) :
    lookupHolding (hs ++ [(s, v)]) s = some v := by
  induction hs with
  | nil => simp [lookupHolding_cons, lookupHolding_nil]
  | cons q t ih =>
      rw [lookupHolding_cons] at h
      rw [List.cons_append, lookupHolding_cons]
      cases hq : (q.1 == s) with
      | true => simp [hq] at h
      | false =>
          simp only [hq, Bool.false_eq_true, if_false] at h ⊢
          exact ih h

theorem lookupHolding_append_ne (hs : List (String × ℚ)) (s s' : String) (v : ℚ)
    (h : s' ≠ s) :
    lookupHolding (hs ++ [(s, v)]) s' = lookupHolding hs s' := by
  induction hs with
  | nil =>
      have : (s == s') = false := by
        simp only [beq_eq_false_iff_ne, ne_eq]
        exact fun hc => h hc.symm
      simp [lookupHolding_cons, lookupHolding_nil, this]
  | cons q t ih =>
      rw [List.cons_append, lookupHolding_cons, lookupHolding_cons]
      cases hq : (q.1 == s') with
      | true => simp [hq]
      | false => simp [hq, ih]

theorem update_holdings_processed (db : Ledger) (s : String) (a : ℚ)
    (side : String) :
    (update_holdings db s a side).processed = db.processed := by
  unfold update_holdings
  cases lookupHolding db.holdings s <;> rfl

theorem lookupHolding_update_self_some (db : Ledger) (s : String) (a v : ℚ)
    (side : String) (h : lookupHolding db.holdings s = some v) :
    lookupHolding (update_holdings db s a side).holdings s =
      some (if side == "buy" then v + a else v - a) := by
  simp [update_holdings, h, lookupHolding_setHolding_self]

theorem lookupHolding_update_self_none (db : Ledger) (s : String) (a : ℚ)
    (side : String) (h : lookupHolding db.holdings s = none) :
    lookupHolding (update_holdings db s a side).holdings s = some a := by
  simp [update_holdings, h, lookupHolding_append_self _ _ _ h]

theorem lookupHolding_update_ne (db : Ledger) (s s' : String) (a : ℚ)
    (side : String) (h : s' ≠ s) :
    lookupHolding (update_holdings db s a side).holdings s' =
      lookupHolding db.holdings s' := by
  unfold update_holdings
  cases hl : lookupHolding db.holdings s with
  | some v => simpa using lookupHolding_setHolding_ne db.holdings s s' _ h
  | none => simpa using lookupHolding_append_ne db.holdings s s' a h

theorem get_holding_update_buy (db : Ledger) (s : String) (a : ℚ) :
    get_holding_amount (update_holdings db s a "buy") s =
      get_holding_amount db s + a := by
  cases hl : lookupHolding db.holdings s with
  | some v =>
      simp [get_holding_amount, lookupHolding_update_self_some db s a v "buy" hl, hl]
  | none =>
      simp [get_holding_amount, lookupHolding_update_self_none db s a "buy" hl, hl]

/-- Invariant behind C2: once a `holdings` row for the symbol exists with
value `v`, a sequence of deltas leaves the holding at `v` plus its signed
sum (the UPDATE branch of `update_holdings` does honour the side). -/
theorem applyDeltas_existing (symbol : String) (ds : List (String × ℚ)) :
    ∀ (db : Ledger) (v : ℚ), lookupHolding db.holdings symbol = some v →
    get_holding_amount (applyDeltas symbol db ds) symbol = v + signedSum ds := by
  induction ds with
  | nil =>
      intro db v h
      simp [applyDeltas, signedSum, get_holding_amount, h]
  | cons d rest ih =>
      intro db v h
      obtain ⟨side, a⟩ := d
      have h2 := lookupHolding_update_self_some db symbol a v side h
      have := ih (update_holdings db symbol a side) _ h2
      rw [applyDeltas, this, signedSum]
      cases hb : (side == "buy") with
      | true => simp [hb]; ring
      | false => simp [hb]; ring

/-- C1: a lead trade whose orderId is already in `processed_trades` is skipped
by the `continue` on line 120, before the side or sizing logic: no Exchange
Gateway call is made, no Ledger write happens, and no error is raised. -/
theorem processed_trade_skipped (env : GatewayEnv) (oa : ℚ) (st : EngineState)
    (t : Trade) (h : is_trade_processed st.db t.order = true) :
    processTrade env oa st t = (st, [], none) := by
  simp [processTrade, h]

/-- Witness for C1 at a concrete already-processed trade. -/
theorem processed_trade_skipped_witness :
    is_trade_processed ⟨[⟨"L1", "BTC/USDT", 1, "buy"⟩], []⟩ "L1" = true ∧
    processTrade ⟨.ok "F1", .ok ()⟩ 100
        ⟨⟨[⟨"L1", "BTC/USDT", 1, "buy"⟩], []⟩, none⟩
        ⟨"L1", "BTC/USDT", "buy", 50000, "USDT"⟩ =
      (⟨⟨[⟨"L1", "BTC/USDT", 1, "buy"⟩], []⟩, none⟩, [], none) :=
  ⟨by decide, processed_trade_skipped _ _ _ _ (by decide)⟩

/-- C2 (counterexample): a sell delta applied to a symbol with no `holdings`
row does not start from 0 — the INSERT branch of `update_holdings` stores
`+amount` regardless of side, so a single sell of 5 leaves the holding at 5,
while the claimed sum of buys minus sells is −5. -/
theorem holdings_initial_sell_counterexample :
    get_holding_amount (applyDeltas "BTC/USDT" ⟨[], []⟩ [("sell", 5)]) "BTC/USDT" = 5 ∧
    signedSum [("sell", 5)] = -5 ∧ (5 : ℚ) ≠ -5 := by
  refine ⟨by decide, ?_, by decide⟩
  simp [signedSum]

/-- C2 (amended): for a sequence of buy/sell deltas for a symbol with no
`holdings` row, whose first delta is a buy (or which is empty),
`get_holding_amount` afterwards equals the sum of the buy amounts minus the
sum of the sell amounts; a delta applied to an absent symbol inserts
`+amount` regardless of side, so the formula needs the first delta to be a
buy. -/
theorem holdings_sum_when_first_buy (db : Ledger) (symbol : String)
    (ds : List (String × ℚ))
    (h0 : lookupHolding db.holdings symbol = none)
    (hsides : ∀ d ∈ ds, d.1 = "buy" ∨ d.1 = "sell")
    (hfirst : ds = [] ∨ ∃ a rest, ds = ("buy", a) :: rest) :
    get_holding_amount (applyDeltas symbol db ds) symbol = signedSum ds := by
  rcases hfirst with h | ⟨a, rest, rfl⟩
  · subst h
    simp [applyDeltas, signedSum, get_holding_amount, h0]
  · have h2 := lookupHolding_update_self_none db symbol a "buy" h0
    have h3 := applyDeltas_existing symbol rest (update_holdings db symbol a "buy") a h2
    rw [applyDeltas, h3, signedSum]
    simp

/-- Witness for C2 (amended) at a concrete buy-then-sell sequence. -/
theorem holdings_sum_when_first_buy_witness :
    get_holding_amount (applyDeltas "BTC/USDT" ⟨[], []⟩ [("buy", 3), ("sell", 1)]) "BTC/USDT"
      = signedSum [("buy", 3), ("sell", 1)] :=
  holdings_sum_when_first_buy ⟨[], []⟩ "BTC/USDT" [("buy", 3), ("sell", 1)]
    rfl (by decide) (Or.inr ⟨3, [("sell", 1)], rfl⟩)

/-- C10: `update_holdings symbol amount side` touches at most the `holdings`
row of that symbol — `processed_trades` is unchanged, every other symbol's
row (presence and value) is unchanged — and it never deletes a row: after
the call the symbol has a row, and when a row with value `v` existed the new
row holds `v + amount` for a buy and `v - amount` otherwise (so a full sell
leaves a row with amount 0). -/
theorem update_holdings_frame (db : Ledger) (s : String) (a : ℚ) (side : String) :
    (update_holdings db s a side).processed = db.processed ∧
    (∀ s', s' ≠ s →
      lookupHolding (update_holdings db s a side).holdings s' =
        lookupHolding db.holdings s') ∧
    (lookupHolding (update_holdings db s a side).holdings s).isSome = true ∧
    (∀ v, lookupHolding db.holdings s = some v →
      lookupHolding (update_holdings db s a side).holdings s =
        some (if side == "buy" then v + a else v - a)) := by
  refine ⟨update_holdings_processed db s a side,
    fun s' h => lookupHolding_update_ne db s s' a side h, ?_,
    fun v hv => lookupHolding_update_self_some db s a v side hv⟩
  cases hl : lookupHolding db.holdings s with
  | some v => simp [lookupHolding_update_self_some db s a v side hl]
  | none => simp [lookupHolding_update_self_none db s a side hl]

/-- Witness for C10: a full sell on a concrete two-symbol ledger leaves the
other symbol untouched, keeps the sold-out row with amount 0, and leaves
`processed_trades` unchanged. -/
theorem update_holdings_frame_witness :
    (update_holdings ⟨[], [("BTC/USDT", 2), ("ETH/USDT", 7)]⟩ "BTC/USDT" 2 "sell").processed
        = [] ∧
    lookupHolding (update_holdings ⟨[], [("BTC/USDT", 2), ("ETH/USDT", 7)]⟩
        "BTC/USDT" 2 "sell").holdings "ETH/USDT" = some 7 ∧
    lookupHolding (update_holdings ⟨[], [("BTC/USDT", 2), ("ETH/USDT", 7)]⟩
        "BTC/USDT" 2 "sell").holdings "BTC/USDT" = some 0 := by
  have h := update_holdings_frame ⟨[], [("BTC/USDT", 2), ("ETH/USDT", 7)]⟩ "BTC/USDT" 2 "sell"
  refine ⟨h.1, ?_, ?_⟩
  · rw [h.2.1 "ETH/USDT" (by decide)]
    decide
  · have := h.2.2.2 2 (by decide)
    simpa using this

/-- C4 (code-bug evaluation): on a fresh engine run (the Python local
`amount` never assigned), a zero-holding sell trade — and likewise a
successful sell processed before any buy — reaches line 156, which reads the
unbound `amount` and raises UnboundLocalError; the per-trade handler catches
it and the lead trade's orderId is NOT marked processed, contradicting the
claim that the lead id is always marked when the action step itself
succeeds. -/
theorem lead_mark_skipped_on_unbound_amount :
    processTrade ⟨.ok "F1", .ok ()⟩ 100 ⟨⟨[], []⟩, none⟩
        ⟨"L1", "BTC/USDT", "sell", 20000, "USDT"⟩ =
      (⟨⟨[], []⟩, none⟩, [], some .nameError) ∧
    (processTrade ⟨.ok "F1", .ok ()⟩ 100 ⟨⟨[], [("BTC/USDT", 2)]⟩, none⟩
        ⟨"L1", "BTC/USDT", "sell", 20000, "USDT"⟩).2.2 = some .nameError ∧
    is_trade_processed
        (processTrade ⟨.ok "F1", .ok ()⟩ 100 ⟨⟨[], [("BTC/USDT", 2)]⟩, none⟩
          ⟨"L1", "BTC/USDT", "sell", 20000, "USDT"⟩).1.db "L1" = false := by
  decide

/-- C5 (code-bug evaluation): `mark_trade_as_processed` on an already-present
orderId does fail with the duplicate-key error, but the Copy Engine does not
treat it as an idempotent success: the per-trade `except Exception` handler
catches it, and the remainder of the per-trade recording is skipped — after
a buy whose minted follower id "F1" is already in `processed_trades`, no
holding delta is applied and the lead id "L1" is not marked, so the trade
will be re-executed on the next cycle. -/
theorem duplicate_mark_skips_recording :
    mark_trade_as_processed ⟨[⟨"F1", "BTC/USDT", 1, "buy"⟩], []⟩ "F1" "BTC/USDT" 1 "buy"
      = .error .integrityError ∧
    (processTrade ⟨.ok "F1", .ok ()⟩ 100
        ⟨⟨[⟨"F1", "BTC/USDT", 1, "buy"⟩], []⟩, none⟩
        ⟨"L1", "BTC/USDT", "buy", 50000, "USDT"⟩).2.2 = some .integrityError ∧
    (processTrade ⟨.ok "F1", .ok ()⟩ 100
        ⟨⟨[⟨"F1", "BTC/USDT", 1, "buy"⟩], []⟩, none⟩
        ⟨"L1", "BTC/USDT", "buy", 50000, "USDT"⟩).1.db =
      ⟨[⟨"F1", "BTC/USDT", 1, "buy"⟩], []⟩ ∧
    is_trade_processed (processTrade ⟨.ok "F1", .ok ()⟩ 100
        ⟨⟨[⟨"F1", "BTC/USDT", 1, "buy"⟩], []⟩, none⟩
        ⟨"L1", "BTC/USDT", "buy", 50000, "USDT"⟩).1.db "L1" = false := by
  exact ⟨rfl, by decide⟩

/-- C8 (counterexample): the buy sizing on line 135 has no InvalidPrice
guard — at price 0 the division raises ZeroDivisionError (a different,
unguarded error) and at price −1 it produces a (negative) result instead of
failing. -/
theorem sizer_no_invalidPrice_guard :
    computeBuyAmount 100 0 = .error .zeroDivisionError ∧
    PyError.zeroDivisionError ≠ PyError.invalidPrice ∧
    computeBuyAmount 100 (-1) = .ok (-100) := by
  refine ⟨by simp [computeBuyAmount], by decide, ?_⟩
  norm_num [computeBuyAmount]

/-- C8 (amended): for price ≤ 0 the sizing never fails with InvalidPrice;
at price 0 it raises an unguarded ZeroDivisionError, and for price < 0 it
returns the quotient (a negative amount) without any error. -/
theorem sizer_behaviour_nonpositive_price (q p : ℚ) (h : p ≤ 0) :
    computeBuyAmount q p ≠ .error .invalidPrice ∧
    (p = 0 → computeBuyAmount q p = .error .zeroDivisionError) ∧
    (p < 0 → computeBuyAmount q p = .ok (q / p)) := by
  by_cases hp : p = 0
  · subst hp
    exact ⟨by simp [computeBuyAmount], fun _ => by simp [computeBuyAmount],
      fun hc => absurd hc (by norm_num)⟩
  · exact ⟨by simp [computeBuyAmount, hp], fun hc => absurd hc hp,
      fun _ => by simp [computeBuyAmount, hp]⟩

/-- Witness for C8 (amended) at price 0 and balance-share 100. -/
theorem sizer_behaviour_nonpositive_price_witness :
    computeBuyAmount 100 0 ≠ .error .invalidPrice ∧
    computeBuyAmount 100 0 = .error .zeroDivisionError :=
  ⟨(sizer_behaviour_nonpositive_price 100 0 le_rfl).1,
   (sizer_behaviour_nonpositive_price 100 0 le_rfl).2.1 rfl⟩

theorem finishLeadMark_events (st : EngineState) (t : Trade) (evs : List Event) :
    (finishLeadMark st t evs).2.1 = evs := by
  unfold finishLeadMark
  cases hA : st.amountVar with
  | none => rfl
  | some a =>
      cases hm : mark_trade_as_processed st.db t.order t.symbol a t.side with
      | error e => simp [hm]
      | ok db1 => simp [hm]

theorem finishLeadMark_holdings (st : EngineState) (t : Trade) (evs : List Event) :
    (finishLeadMark st t evs).1.db.holdings = st.db.holdings := by
  unfold finishLeadMark
  cases hA : st.amountVar with
  | none => rfl
  | some a =>
      cases hm : mark_trade_as_processed st.db t.order t.symbol a t.side with
      | error e => simp [hm]
      | ok db1 =>
          have hdb : db1.holdings = st.db.holdings := by
            unfold mark_trade_as_processed at hm
            cases hp : is_trade_processed st.db t.order with
            | true => rw [hp] at hm; simp at hm
            | false =>
                rw [hp] at hm
                simp only [Bool.false_eq_true, if_false, Except.ok.injEq] at hm
                rw [← hm]
          simp [hm, hdb]

theorem is_trade_processed_append (l : List ProcessedRow) (hs : List (String × ℚ))
    (row : ProcessedRow) (x : String) :
    is_trade_processed ⟨l ++ [row], hs⟩ x =
      (is_trade_processed ⟨l, hs⟩ x || (row.ordId == x)) := by
  simp [is_trade_processed, List.any_append]

/-- The buy branch submits exactly one market-buy call, sized
`order_amount_usdt / price`, whatever the gateway and ledger outcomes. -/
theorem processTrade_buy_events (env : GatewayEnv) (oa : ℚ) (st : EngineState)
    (t : Trade)
    (h1 : is_trade_processed st.db t.order = false)
    (h2 : t.quote = "USDT") (h3 : t.side = "buy") (h4 : t.price ≠ 0) :
    (processTrade env oa st t).2.1 =
      [Event.marketOrder t.symbol "buy" (oa / t.price)] := by
  unfold processTrade
  simp only [h1, Bool.false_eq_true, if_false, h2, ne_eq, not_true_eq_false, h3,
    beq_self_eq_true, if_true, computeBuyAmount, h4, if_false]
  cases hE : env.orderResult with
  | error e => simp [hE]
  | ok newId =>
      cases hm : mark_trade_as_processed st.db newId t.symbol (oa / t.price) "buy" with
      | error e => simp [hE, hm]
      | ok db1 =>
          cases hm2 : mark_trade_as_processed (update_holdings db1 t.symbol (oa / t.price) "buy")
              t.order t.symbol (oa / t.price) "buy" with
          | error e => simp [hE, hm, hm2]
          | ok db3 => simp [hE, hm, hm2]

/-- The successful buy path: one order for `oa / price`, no caught error,
the holding increased by exactly that amount, and the lead id marked. -/
theorem processTrade_buy_success (env : GatewayEnv) (oa : ℚ) (st : EngineState)
    (t : Trade) (newId : String)
    (h1 : is_trade_processed st.db t.order = false)
    (h2 : t.quote = "USDT") (h3 : t.side = "buy") (h4 : t.price ≠ 0)
    (h5 : env.orderResult = .ok newId)
    (h6 : is_trade_processed st.db newId = false)
    (h7 : newId ≠ t.order) :
    get_holding_amount (processTrade env oa st t).1.db t.symbol
      = get_holding_amount st.db t.symbol + oa / t.price ∧
    (processTrade env oa st t).2.2 = none ∧
    is_trade_processed (processTrade env oa st t).1.db t.order = true := by
  have hb : (newId == t.order) = false := by
    simp only [beq_eq_false_iff_ne, ne_eq]
    exact h7
  have hm1 : mark_trade_as_processed st.db newId t.symbol (oa / t.price) "buy"
      = .ok ⟨st.db.processed ++ [⟨newId, t.symbol, oa / t.price, "buy"⟩], st.db.holdings⟩ := by
    simp [mark_trade_as_processed, h6]
  have hu : update_holdings
      (⟨st.db.processed ++ [⟨newId, t.symbol, oa / t.price, "buy"⟩], st.db.holdings⟩ : Ledger)
      t.symbol (oa / t.price) "buy"
      = ⟨st.db.processed ++ [⟨newId, t.symbol, oa / t.price, "buy"⟩],
          (update_holdings st.db t.symbol (oa / t.price) "buy").holdings⟩ := by
    unfold update_holdings
    cases lookupHolding st.db.holdings t.symbol <;> rfl
  have hp2 : is_trade_processed
      (⟨st.db.processed ++ [⟨newId, t.symbol, oa / t.price, "buy"⟩],
        (update_holdings st.db t.symbol (oa / t.price) "buy").holdings⟩ : Ledger)
      t.order = false := by
    rw [is_trade_processed_append]
    simp only [Bool.or_eq_false_iff]
    exact ⟨h1, hb⟩
  have hm2 : mark_trade_as_processed
      (⟨st.db.processed ++ [⟨newId, t.symbol, oa / t.price, "buy"⟩],
        (update_holdings st.db t.symbol (oa / t.price) "buy").holdings⟩ : Ledger)
      t.order t.symbol (oa / t.price) "buy"
      = .ok ⟨(st.db.processed ++ [⟨newId, t.symbol, oa / t.price, "buy"⟩])
              ++ [⟨t.order, t.symbol, oa / t.price, "buy"⟩],
             (update_holdings st.db t.symbol (oa / t.price) "buy").holdings⟩ := by
    simp [mark_trade_as_processed, hp2]
  unfold processTrade
  simp only [h1, Bool.false_eq_true, if_false, h2, ne_eq, not_true_eq_false, h3,
    beq_self_eq_true, if_true, computeBuyAmount, h4, if_false, h5, hm1, hu, hm2]
  refine ⟨?_, trivial, ?_⟩
  · exact get_holding_update_buy st.db t.symbol (oa / t.price)
  · rw [is_trade_processed_append]
    simp

/-- C3: an eligible trade whose order submission raises is caught by the
per-trade handler, leaves the Ledger unchanged (neither the follower order id
nor the lead orderId is marked, no holding delta), stays eligible, and a
subsequent successful retry of a buy applies exactly one holding delta. -/
theorem failed_order_leaves_ledger (env : GatewayEnv) (oa : ℚ) (st : EngineState)
    (t : Trade) (e : PyError)
    (h1 : is_trade_processed st.db t.order = false)
    (h2 : t.quote = "USDT")
    (h3 : env.orderResult = .error e)
    (h4 : (t.side = "buy" ∧ t.price ≠ 0) ∨
          (t.side = "sell" ∧ 0 < get_holding_amount st.db t.symbol ∧
            env.marginResult = .ok ())) :
    (processTrade env oa st t).1.db = st.db ∧
    (processTrade env oa st t).2.2 = some e ∧
    is_trade_processed (processTrade env oa st t).1.db t.order = false ∧
    (∀ (env2 : GatewayEnv) (newId : String), env2.orderResult = .ok newId →
      is_trade_processed st.db newId = false → newId ≠ t.order → t.side = "buy" →
      get_holding_amount (processTrade env2 oa (processTrade env oa st t).1 t).1.db t.symbol
        = get_holding_amount st.db t.symbol + oa / t.price) := by
  have hnb : (("sell" : String) == "buy") = false := by decide
  have hres : (processTrade env oa st t).1.db = st.db ∧
      (processTrade env oa st t).2.2 = some e := by
    rcases h4 with ⟨hb, hp⟩ | ⟨hs, hpos, hmargin⟩
    · unfold processTrade
      simp only [h1, Bool.false_eq_true, if_false, h2, ne_eq, not_true_eq_false, hb,
        beq_self_eq_true, if_true, computeBuyAmount, hp, if_false, h3]
      exact ⟨by trivial, by trivial⟩
    · unfold processTrade
      simp only [h1, Bool.false_eq_true, if_false, h2, ne_eq, not_true_eq_false, hs,
        hnb, beq_self_eq_true, if_true, hpos, hmargin, h3]
      exact ⟨by trivial, by trivial⟩
  refine ⟨hres.1, hres.2, ?_, ?_⟩
  · rw [hres.1]
    exact h1
  · intro env2 newId hok hnew hne hbuy
    rcases h4 with ⟨_, hp⟩ | ⟨hs, _, _⟩
    · have hmain := (processTrade_buy_success env2 oa (processTrade env oa st t).1 t newId
        (by rw [hres.1]; exact h1) h2 hbuy hp hok
        (by rw [hres.1]; exact hnew) hne).1
      rw [hres.1] at hmain
      exact hmain
    · rw [hs] at hbuy
      exact absurd hbuy (by decide)

/-- Witness for C3: a buy failing with InsufficientFunds leaves the empty
ledger empty, and the retry ends with exactly one holding delta applied. -/
theorem failed_order_leaves_ledger_witness :
    (processTrade ⟨.error .insufficientFunds, .ok ()⟩ 100 ⟨⟨[], []⟩, none⟩
        ⟨"L1", "BTC/USDT", "buy", 50000, "USDT"⟩).1.db = ⟨[], []⟩ ∧
    get_holding_amount (processTrade ⟨.ok "F1", .ok ()⟩ 100
        (processTrade ⟨.error .insufficientFunds, .ok ()⟩ 100 ⟨⟨[], []⟩, none⟩
          ⟨"L1", "BTC/USDT", "buy", 50000, "USDT"⟩).1
        ⟨"L1", "BTC/USDT", "buy", 50000, "USDT"⟩).1.db "BTC/USDT"
      = get_holding_amount (⟨[], []⟩ : Ledger) "BTC/USDT" + 100 / 50000 := by
  have h := failed_order_leaves_ledger ⟨.error .insufficientFunds, .ok ()⟩ 100
      ⟨⟨[], []⟩, none⟩ ⟨"L1", "BTC/USDT", "buy", 50000, "USDT"⟩ .insufficientFunds
      (by decide) rfl rfl (Or.inl ⟨rfl, by norm_num⟩)
  exact ⟨h.1, h.2.2.2 ⟨.ok "F1", .ok ()⟩ "F1" rfl (by decide) (by decide) rfl⟩

/-- C6: an eligible lead sell trade with positive holding submits exactly one
market sell for the entire current holding (the `set_margin_mode` call not
raising); with zero holding no gateway call is made and the holdings table is
not written. -/
theorem sell_liquidates_full_holding (env : GatewayEnv) (oa : ℚ)
    (st : EngineState) (t : Trade)
    (h1 : is_trade_processed st.db t.order = false)
    (h2 : t.quote = "USDT") (h3 : t.side = "sell") :
    (env.marginResult = .ok () → 0 < get_holding_amount st.db t.symbol →
      ((processTrade env oa st t).2.1).filter isOrderCall =
        [Event.marketOrder t.symbol "sell" (get_holding_amount st.db t.symbol)]) ∧
    (get_holding_amount st.db t.symbol = 0 →
      (processTrade env oa st t).2.1 = [] ∧
      (processTrade env oa st t).1.db.holdings = st.db.holdings) := by
  have hnb : (("sell" : String) == "buy") = false := by decide
  constructor
  · intro hm hpos
    unfold processTrade
    simp only [h1, Bool.false_eq_true, if_false, h2, ne_eq, not_true_eq_false, h3,
      hnb, beq_self_eq_true, if_true, hpos, hm, if_pos]
    cases hE : env.orderResult with
    | error e => simp [hE, isOrderCall]
    | ok newId =>
        cases hmk : mark_trade_as_processed st.db newId t.symbol
            (get_holding_amount st.db t.symbol) "sell" with
        | error e => simp [hE, hmk, isOrderCall]
        | ok db1 => simp [hE, hmk, isOrderCall, finishLeadMark_events]
  · intro h0
    unfold processTrade
    simp only [h1, Bool.false_eq_true, if_false, h2, ne_eq, not_true_eq_false, h3,
      hnb, beq_self_eq_true, if_true, h0, lt_self_iff_false, if_false]
    exact ⟨finishLeadMark_events st t [], finishLeadMark_holdings st t []⟩

/-- Witness for C6: with a holding of 2 the concrete sell submits one market
sell of 2. -/
theorem sell_liquidates_full_holding_witness :
    ((processTrade ⟨.ok "F1", .ok ()⟩ 100 ⟨⟨[], [("BTC/USDT", 2)]⟩, some 1⟩
        ⟨"L1", "BTC/USDT", "sell", 20000, "USDT"⟩).2.1).filter isOrderCall =
      [Event.marketOrder "BTC/USDT" "sell" 2] := by
  have h := (sell_liquidates_full_holding ⟨.ok "F1", .ok ()⟩ 100
      ⟨⟨[], [("BTC/USDT", 2)]⟩, some 1⟩ ⟨"L1", "BTC/USDT", "sell", 20000, "USDT"⟩
      (by decide) rfl rfl).1 rfl (by decide)
  rw [h]
  decide

/-- C7: for an eligible lead buy trade with positive price the submitted
follower amount is (balance * 0.1) / price; concretely with balance 1000 and
price 50000 the amount is 0.002 = 1/500 and after success the holding for the
symbol is 1/500. -/
theorem buy_amount_is_tenth_of_balance (env : GatewayEnv) (b : ℚ)
    (st : EngineState) (t : Trade)
    (h1 : is_trade_processed st.db t.order = false)
    (h2 : t.quote = "USDT") (h3 : t.side = "buy") (h4 : 0 < t.price) :
    (processTrade env (b * (1 / 10)) st t).2.1 =
      [Event.marketOrder t.symbol "buy" (b * (1 / 10) / t.price)] ∧
    (1000 : ℚ) * (1 / 10) / 50000 = 1 / 500 ∧
    get_holding_amount (processTrade ⟨.ok "F1", .ok ()⟩ ((1000 : ℚ) * (1 / 10))
        ⟨⟨[], []⟩, none⟩ ⟨"L1", "BTC/USDT", "buy", 50000, "USDT"⟩).1.db "BTC/USDT"
      = 1 / 500 := by
  refine ⟨processTrade_buy_events env (b * (1 / 10)) st t h1 h2 h3 h4.ne', ?_, ?_⟩
  · norm_num
  · have h := (processTrade_buy_success ⟨.ok "F1", .ok ()⟩ ((1000 : ℚ) * (1 / 10))
        ⟨⟨[], []⟩, none⟩ ⟨"L1", "BTC/USDT", "buy", 50000, "USDT"⟩ "F1"
        (by decide) rfl rfl (by norm_num) rfl (by decide) (by decide)).1
    show get_holding_amount (processTrade ⟨.ok "F1", .ok ()⟩ ((1000 : ℚ) * (1 / 10))
        ⟨⟨[], []⟩, none⟩ ⟨"L1", "BTC/USDT", "buy", 50000, "USDT"⟩).1.db
        (Trade.symbol ⟨"L1", "BTC/USDT", "buy", 50000, "USDT"⟩) = 1 / 500
    rw [h]
    norm_num [get_holding_amount, lookupHolding]

/-- Witness for C7 at balance 1000 and price 50000. -/
theorem buy_amount_is_tenth_of_balance_witness :
    (processTrade ⟨.ok "F1", .ok ()⟩ ((1000 : ℚ) * (1 / 10)) ⟨⟨[], []⟩, none⟩
        ⟨"L1", "BTC/USDT", "buy", 50000, "USDT"⟩).2.1 =
      [Event.marketOrder "BTC/USDT" "buy" ((1000 : ℚ) * (1 / 10) / 50000)] ∧
    get_holding_amount (processTrade ⟨.ok "F1", .ok ()⟩ ((1000 : ℚ) * (1 / 10))
        ⟨⟨[], []⟩, none⟩ ⟨"L1", "BTC/USDT", "buy", 50000, "USDT"⟩).1.db "BTC/USDT"
      = 1 / 500 := by
  have h := buy_amount_is_tenth_of_balance ⟨.ok "F1", .ok ()⟩ 1000 ⟨⟨[], []⟩, none⟩
      ⟨"L1", "BTC/USDT", "buy", 50000, "USDT"⟩ (by decide) rfl rfl (by norm_num)
  exact ⟨h.1, h.2.2⟩

theorem processTrade_event_buy (env : GatewayEnv) (oa : ℚ) (st : EngineState)
    (t : Trade) (s : String) (a : ℚ)
    (h : Event.marketOrder s "buy" a ∈ (processTrade env oa st t).2.1) :
    s = t.symbol ∧ a = oa / t.price := by
  unfold processTrade at h
  cases hp : is_trade_processed st.db t.order with
  | true => rw [hp] at h; simp at h
  | false =>
  rw [hp] at h
  simp only [Bool.false_eq_true, if_false] at h
  by_cases hq : t.quote = "USDT"
  swap
  · rw [if_pos hq] at h
    simp at h
  rw [if_neg (not_not_intro hq)] at h
  cases hb : (t.side == "buy") with
  | true =>
      simp only [hb, if_true] at h
      by_cases hz : t.price = 0
      · simp [computeBuyAmount, hz] at h
      · simp only [computeBuyAmount, if_neg hz] at h
        cases hE : env.orderResult with
        | error e =>
            simp only [hE, List.mem_singleton, Event.marketOrder.injEq] at h
            exact ⟨h.1, h.2.2⟩
        | ok newId =>
            simp only [hE] at h
            cases hm : mark_trade_as_processed st.db newId t.symbol (oa / t.price) "buy" with
            | error e =>
                simp only [hm, List.mem_singleton, Event.marketOrder.injEq] at h
                exact ⟨h.1, h.2.2⟩
            | ok db1 =>
                cases hm2 : mark_trade_as_processed
                    (update_holdings db1 t.symbol (oa / t.price) "buy")
                    t.order t.symbol (oa / t.price) "buy" with
                | error e =>
                    simp only [hm, hm2, List.mem_singleton, Event.marketOrder.injEq] at h
                    exact ⟨h.1, h.2.2⟩
                | ok db3 =>
                    simp only [hm, hm2, List.mem_singleton, Event.marketOrder.injEq] at h
                    exact ⟨h.1, h.2.2⟩
  | false =>
  simp only [hb, Bool.false_eq_true, if_false] at h
  cases hs : (t.side == "sell") with
  | false =>
      simp only [hs, Bool.false_eq_true, if_false, finishLeadMark_events] at h
      simp at h
  | true =>
  simp only [hs, if_true] at h
  by_cases hpos : 0 < get_holding_amount st.db t.symbol
  swap
  · rw [if_neg hpos] at h
    rw [finishLeadMark_events] at h
    simp at h
  rw [if_pos hpos] at h
  cases hM : env.marginResult with
  | error e => simp [hM] at h
  | ok u =>
      simp only [hM] at h
      cases hE : env.orderResult with
      | error e => simp [hE] at h
      | ok newId =>
          simp only [hE] at h
          cases hmk : mark_trade_as_processed st.db newId t.symbol
              (get_holding_amount st.db t.symbol) "sell" with
          | error e => simp [hmk] at h
          | ok db1 =>
              simp only [hmk, finishLeadMark_events] at h
              simp at h

theorem processTrades_event_buy (oa : ℚ) (l : List (GatewayEnv × Trade)) :
    ∀ (st : EngineState) (s : String) (a : ℚ),
    Event.marketOrder s "buy" a ∈ (processTrades oa st l).2 →
    ∃ p ∈ l, s = p.2.symbol ∧ a = oa / p.2.price := by
  induction l with
  | nil =>
      intro st s a h
      simp [processTrades] at h
  | cons hd tl ih =>
      intro st s a h
      obtain ⟨env, t⟩ := hd
      simp only [processTrades, List.mem_append] at h
      rcases h with h | h
      · obtain ⟨hs, ha⟩ := processTrade_event_buy env oa st t s a h
        exact ⟨(env, t), List.mem_cons_self _ _, hs, ha⟩
      · obtain ⟨p, hp, hs, ha⟩ := ih _ s a h
        exact ⟨p, List.mem_cons_of_mem _ hp, hs, ha⟩

/-- C9: every market buy submitted during one polling cycle is sized from the
single balance fetched at the start of the cycle: its amount is
balance * 0.1 / price of its lead trade, for every gateway outcome and
every position in the page — the balance is not refreshed between trades, so
two buys in one page each commit 10% of the identical pre-cycle balance. -/
theorem cycle_buys_use_cycle_start_balance (b : ℚ) (st : EngineState)
    (page : List (GatewayEnv × Trade)) (s : String) (a : ℚ)
    (h : Event.marketOrder s "buy" a ∈ (runCycle b st page).2) :
    ∃ p ∈ page, s = p.2.symbol ∧ a = b * (1 / 10) / p.2.price := by
  obtain ⟨p, hp, hs, ha⟩ := processTrades_event_buy (b * (1 / 10)) page.reverse st s a h
  exact ⟨p, List.mem_reverse.mp hp, hs, ha⟩

/-- Witness for C9: the buy submitted in a concrete one-trade cycle with
balance 1000 is sized 1000 * 0.1 / price. -/
theorem cycle_buys_use_cycle_start_balance_witness :
    ∃ p ∈ [((⟨.ok "F1", .ok ()⟩ : GatewayEnv),
            (⟨"L1", "BTC/USDT", "buy", 50000, "USDT"⟩ : Trade))],
      "BTC/USDT" = p.2.symbol ∧
      (1000 : ℚ) * (1 / 10) / 50000 = 1000 * (1 / 10) / p.2.price := by
  apply cycle_buys_use_cycle_start_balance 1000 ⟨⟨[], []⟩, none⟩
  have hev : (runCycle (1000 : ℚ) ⟨⟨[], []⟩, none⟩
      [(⟨.ok "F1", .ok ()⟩, ⟨"L1", "BTC/USDT", "buy", 50000, "USDT"⟩)]).2
      = [Event.marketOrder "BTC/USDT" "buy" ((1000 : ℚ) * (1 / 10) / 50000)] := by
    have h := processTrade_buy_events ⟨.ok "F1", .ok ()⟩ ((1000 : ℚ) * (1 / 10))
        ⟨⟨[], []⟩, none⟩ ⟨"L1", "BTC/USDT", "buy", 50000, "USDT"⟩
        (by decide) rfl rfl (by norm_num)
    simp only [runCycle, List.reverse_singleton, processTrades, List.append_nil]
    exact h
  rw [hev]
  exact List.mem_singleton.mpr rfl

end TradesDuplicator
